import Mathlib

/-!
Verification development for the fast-ai library (OpenAI-style chat client
with a tool-calling loop).  The definitions below are a shallow embedding of
`src/fastai.ts` (the library's current TypeScript source): the class
`OpenAI` with its `chat` loop, `createOpenAI`, `createTool`, `generateText`
and `generateObject`, plus the server-sent-event decoding loop of
`OpenAI.stream` (present in the bundled variant of the same module, the only
implementation of `stream` in the repository).

Modelling conventions:
* The HTTP transport is external: it is modelled as a script, the list of
  `ChatResponse` values the endpoint returns to successive POSTs.  Each loop
  iteration records the serialized request body it POSTs.
* `JSON.parse` is an external JavaScript builtin; functions that call it take
  a `jsonParse : String → Except String Json` parameter (`Except.error`
  models a thrown SyntaxError).
* A zod schema is modelled by its observable behaviour: its `parse` function
  (`Except.error` models a thrown ZodError) together with the JSON-Schema
  value the opaque `zodToJsonSchema` collaborator derives from it.
* The `onToolCall` callback is modelled by whether it is installed
  (`hasOnToolCall`) plus the trace of names it would be invoked with,
  in invocation order.
* JavaScript `await` on a value that is not a promise returns the value
  itself; `ExecOutcome` distinguishes a synchronously returned string from a
  promise of a string, and `awaited` collapses both, exactly as `await`
  does at the `tool.execute` call site.
* JavaScript reference semantics: `openai.messages = options.messages`
  aliases the caller's array, so every later `push` mutates the caller's
  array.  The embedding therefore reports, in each result record, the final
  contents of that shared array (`messages`), which is both the loop's
  history and what the caller's array holds after the call.
-/

namespace FastAI

/-- Runtime JSON values (results of `JSON.parse`, arguments handed to zod). -/
inductive Json where
  | null : Json
  | bool (b : Bool) : Json
  | num (n : Int) : Json
  | str (s : String) : Json
  | arr (elems : List Json) : Json
  | obj (fields : List (String × Json)) : Json

/-- A zod schema, observed through its `parse` method (throwing modelled by
`Except.error`) and through the JSON Schema that the opaque
`zodToJsonSchema` collaborator produces for it. -/
structure Schema where
  parse : Json → Except String Json
  toJson : Json

/-- The opaque `zodToJsonSchema(schema)` collaborator. -/
def zodToJsonSchema (s : Schema) : Json := s.toJson

/-- What a tool's `execute` returns at runtime: a plain string (synchronous
return) or a promise of a string. -/
inductive ExecOutcome where
  | sync (s : String) : ExecOutcome
  | async (s : String) : ExecOutcome
deriving DecidableEq

/-- Whether an `execute` result is a promise. -/
def ExecOutcome.isPromise : ExecOutcome → Bool
  | .sync _ => false
  | .async _ => true

/-- JavaScript `await v`: unwraps a promise, passes a plain value through. -/
def awaited : ExecOutcome → String
  | .sync s => s
  | .async s => s

/-- `ChatMessage.role` from `src/fastai.ts`. -/
inductive Role where
  | user : Role
  | assistant : Role
  | system : Role
  | tool : Role
deriving DecidableEq

/-- The `function` field of a `ToolCall` from `src/fastai.ts`. -/
structure ToolCallFunction where
  name : String
  arguments : String
deriving DecidableEq

/-- `ToolCall` from `src/fastai.ts`. -/
structure ToolCall where
  index : Int
  id : String
  type : String
  function : ToolCallFunction
deriving DecidableEq

/-- `ChatMessage` from `src/fastai.ts`.  `content` is declared `string` in
TypeScript, but values come from unchecked `res.json()` casts and the code
guards `assistant.content || ''`; `none` models a `null`/absent content. -/
structure ChatMessage where
  role : Role
  content : Option String
  tool_calls : Option (List ToolCall)
  tool_call_id : Option String
deriving DecidableEq

/-- `Tool` from `src/fastai.ts`: name, optional description, zod parameter
schema, and `execute` (whose runtime result may or may not be a promise). -/
structure Tool where
  name : String
  description : Option String
  parameters : Schema
  execute : Json → ExecOutcome

/-- `createTool` from `src/fastai.ts` (line 18-20): `return options`. -/
def createTool (options : Tool) : Tool := options

/-- One element of `ChatRespose.choices`. -/
structure ChatChoice where
  message : ChatMessage

/-- `ChatRespose` from `src/fastai.ts` (sic): the transport's reply. -/
structure ChatResponse where
  choices : List ChatChoice

/-- The `function` part of a tool descriptor advertised to the server. -/
structure ToolDescriptorFunction where
  name : String
  description : Option String
  parameters : Json

/-- The wire shape `{type: 'function', function: {...}}` built by
`generateToolsJsonSchema`. -/
structure ToolDescriptor where
  type : String
  function : ToolDescriptorFunction

/-- The `tools` field of a serialized request body.  `JSON.stringify` omits a
key whose value is `undefined`; `absent` models that omission, `list`
models an array value (possibly empty). -/
inductive ToolsField where
  | absent : ToolsField
  | list (descriptors : List ToolDescriptor) : ToolsField

/-- The serialized POST body `{model, messages, tools}` of one request. -/
structure RequestBody where
  model : String
  messages : List ChatMessage
  tools : ToolsField

/-- `generateToolsJsonSchema` from `src/fastai.ts` (line 130-139): maps every
tool to its descriptor.  Note it maps an empty list to an empty list. -/
def generateToolsJsonSchema (tools : List Tool) : List ToolDescriptor :=
  tools.map fun t =>
    { type := "function"
      function :=
        { name := t.name
          description := t.description
          parameters := zodToJsonSchema t.parameters } }

/-- Errors thrown by the chat loop. -/
inductive ChatError where
  | noAssistantMessage : ChatError
  | toolNotFound (name : String) : ChatError
  | jsonParseError (message : String) : ChatError
  | toolArgumentError (message : String) : ChatError
deriving DecidableEq

/-- How one `chat` invocation ends: the returned string, a thrown error, or
the model artifact of the transport script running out (the real code would
still be awaiting the POST it just issued). -/
inductive ChatOutcome where
  | ok (text : String) : ChatOutcome
  | error (e : ChatError) : ChatOutcome
  | noResponse : ChatOutcome
deriving DecidableEq

/-- Observable result of one `chat` invocation: final contents of the
(shared, caller-aliased) `messages` array, the serialized bodies POSTed in
order, the `onToolCall` notification trace in order, and the outcome. -/
structure ChatResult where
  messages : List ChatMessage
  requests : List RequestBody
  notifications : List String
  outcome : ChatOutcome

/-- The `OpenAI` class state from `src/fastai.ts`. -/
structure OpenAI where
  baseURL : String
  endpoint : String
  apiKey : String
  model : String
  messages : List ChatMessage
  tools : List Tool
  hasOnToolCall : Bool

/-- JavaScript `a || b` for a string-or-missing left operand: `undefined`,
`null` and `''` are falsy. -/
def jsOr (a : Option String) (b : String) : String :=
  match a with
  | none => b
  | some s => if s = "" then b else s

/-- Result of the `for (const call of tool_calls)` loop body over one batch:
the tool-result messages pushed so far (in order), and whether the batch
completed, returned early (`generateObject` flag), or threw. -/
inductive BatchResult where
  | completed (appended : List ChatMessage) : BatchResult
  | earlyReturn (arguments : String) (appended : List ChatMessage) : BatchResult
  | failed (e : ChatError) (appended : List ChatMessage) : BatchResult

/-- What the loop body does with a single resolvable call, used to state
theorems: find the tool, `JSON.parse` the raw arguments, validate with the
schema, run `execute`, and build the pushed tool-role message.  Returns
`none` at exactly the points where the loop would throw. -/
def callToolMsg (jsonParse : String → Except String Json) (tools : List Tool)
    (call : ToolCall) : Option ChatMessage :=
  match tools.find? (fun t => t.name == call.function.name) with
  | none => none
  | some tool =>
    match jsonParse call.function.arguments with
    | .error _ => none
    | .ok j =>
      match tool.parameters.parse j with
      | .error _ => none
      | .ok args =>
        some { role := Role.tool
               content := some (awaited (tool.execute args))
               tool_calls := none
               tool_call_id := some call.id }

/-- The `for (const call of tool_calls)` loop of `OpenAI.chat`
(`src/fastai.ts` line 92-110): resolve each call in the server's order,
throw `Tool ... not found` if absent, return the raw arguments when the
`generateObject` flag is set, otherwise parse, validate, execute and push a
tool-role message. -/
def processCalls (jsonParse : String → Except String Json) (tools : List Tool)
    (genObj : Bool) : List ToolCall → BatchResult
  | [] => .completed []
  | call :: rest =>
    match tools.find? (fun t => t.name == call.function.name) with
    | none => .failed (.toolNotFound call.function.name) []
    | some tool =>
      if genObj then
        .earlyReturn call.function.arguments []
      else
        match jsonParse call.function.arguments with
        | .error e => .failed (.jsonParseError e) []
        | .ok j =>
          match tool.parameters.parse j with
          | .error e => .failed (.toolArgumentError e) []
          | .ok args =>
            let msg : ChatMessage :=
              { role := Role.tool
                content := some (awaited (tool.execute args))
                tool_calls := none
                tool_call_id := some call.id }
            match processCalls jsonParse tools genObj rest with
            | .completed appended => .completed (msg :: appended)
            | .earlyReturn a appended => .earlyReturn a (msg :: appended)
            | .failed e appended => .failed e (msg :: appended)

/-- The `while (true)` loop of `OpenAI.chat` (`src/fastai.ts` line 60-111),
one recursive step per scripted transport response.  Every iteration first
serializes and POSTs `{model, messages, tools}` (the request is recorded
even when the script has no reply for it), then handles
`res.choices?.[0]?.message` exactly as the source does. -/
def chatLoop (jsonParse : String → Except String Json) (modelName : String)
    (tools : List Tool) (hasObs : Bool) (genObj : Bool) :
    List ChatResponse → List ChatMessage → ChatResult
  | responses, history =>
    let req : RequestBody :=
      { model := modelName
        messages := history
        tools := ToolsField.list (generateToolsJsonSchema tools) }
    let tail : ChatResult :=
      match responses with
      | [] => ⟨history, [], [], ChatOutcome.noResponse⟩
      | r :: rest =>
        match r.choices.head? with
        | none => ⟨history, [], [], ChatOutcome.error ChatError.noAssistantMessage⟩
        | some choice =>
          let assistant := choice.message
          let history1 := history ++ [assistant]
          let calls := assistant.tool_calls.getD []
          if calls.isEmpty then
            ⟨history1, [], [], ChatOutcome.ok (jsOr assistant.content "")⟩
          else
            let notes := if hasObs then calls.map (fun c => c.function.name) else []
            match processCalls jsonParse tools genObj calls with
            | .completed appended =>
              let res := chatLoop jsonParse modelName tools hasObs genObj rest (history1 ++ appended)
              ⟨res.messages, res.requests, notes ++ res.notifications, res.outcome⟩
            | .earlyReturn args appended =>
              ⟨history1 ++ appended, [], notes, ChatOutcome.ok args⟩
            | .failed e appended =>
              ⟨history1 ++ appended, [], notes, ChatOutcome.error e⟩
    ⟨tail.messages, req :: tail.requests, tail.notifications, tail.outcome⟩

/-- `OpenAI.chat` from `src/fastai.ts` (line 56-112): optionally push the
`msg` argument as a user message, then run the loop. -/
def OpenAI.chat (o : OpenAI) (jsonParse : String → Except String Json)
    (msg : Option String) (genObj : Bool) (responses : List ChatResponse) : ChatResult :=
  let history0 :=
    match msg with
    | some m => o.messages ++ [{ role := Role.user, content := some m,
                                 tool_calls := none, tool_call_id := none }]
    | none => o.messages
  chatLoop jsonParse o.model o.tools o.hasOnToolCall genObj responses history0

/-- JavaScript `baseURL.replace(/\/$/, '')`: strip one trailing slash. -/
def stripTrailingSlash (s : String) : String :=
  if s.endsWith "/" then s.dropRight 1 else s

/-- `CreateOpenAIOptions` from `src/fastai.ts`: all fields optional. -/
structure CreateOpenAIOptions where
  baseURL : Option String
  apiKey : Option String
  model : Option String

/-- The `process.env` variables `createOpenAI` falls back to. -/
structure ProcessEnv where
  OPENAI_BASE_URL : Option String
  OPENAI_MODEL : Option String
  OPENAI_API_KEY : Option String

/-- `createOpenAI` from `src/fastai.ts` (line 115-121).  The `baseURL`
setter strips a trailing slash and derives `endpoint`; every field falls
back from explicit options to the environment to a default (`''` for model
and apiKey).  The function is total: no input makes it throw. -/
def createOpenAI (options : CreateOpenAIOptions) (env : ProcessEnv) : OpenAI :=
  let base := stripTrailingSlash
    (jsOr options.baseURL (jsOr env.OPENAI_BASE_URL "https://api.openai.com/v1"))
  { baseURL := base
    endpoint := base ++ "/chat/completions"
    apiKey := jsOr options.apiKey (jsOr env.OPENAI_API_KEY "")
    model := jsOr options.model (jsOr env.OPENAI_MODEL "")
    messages := []
    tools := []
    hasOnToolCall := false }

/-- `GenerateTextOptions` from `src/fastai.ts`.  The source's `onToolCall`
option field is modelled (as a supplied/not-supplied flag) but, exactly as
in the source, `generateText` never copies it onto the client: the loop
reads the instance field `this.onToolCall`. -/
structure GenerateTextOptions where
  openai : Option OpenAI
  messages : List ChatMessage
  tools : Option (List Tool)
  onToolCall : Bool

/-- `generateText` from `src/fastai.ts` (line 141-146).  The assignment
`openai.messages = options.messages` aliases the caller's array (no copy),
so the `messages` field of the result is also the caller's array's contents
after the call. -/
def generateText (env : ProcessEnv) (options : GenerateTextOptions)
    (jsonParse : String → Except String Json) (responses : List ChatResponse) : ChatResult :=
  let openai := options.openai.getD (createOpenAI ⟨none, none, none⟩ env)
  let o := { openai with messages := options.messages, tools := options.tools.getD [] }
  OpenAI.chat o jsonParse none false responses

/-- `GenerateObjectOptions` from `src/fastai.ts`. -/
structure GenerateObjectOptions where
  openai : Option OpenAI
  messages : List ChatMessage
  schema : Schema

/-- The default system preamble `generateObject` pushes when the caller's
messages contain no system message (`src/fastai.ts` line 164-169). -/
def structuredOutputPreamble : String :=
  "You are a structured output assistant. Understand what the user wants, and then respond by calling the tool `submit_object` once, with the parameter being the JSON data that the user wants."

/-- The synthesized system message carrying `structuredOutputPreamble`. -/
def structuredPreambleMsg : ChatMessage :=
  { role := Role.system
    content := some structuredOutputPreamble
    tool_calls := none
    tool_call_id := none }

/-- The synthetic `submit_object` tool built by `generateObject`
(`src/fastai.ts` line 171-178). -/
def submitObjectTool (schema : Schema) : Tool :=
  createTool
    { name := "submit_object"
      description := some "Submit the final structured object that matches the required schema."
      parameters := schema
      execute := fun _ => ExecOutcome.async "Object submitted." }

/-- How one `generateObject` invocation ends. -/
inductive GenObjectOutcome where
  | ok (value : Json) : GenObjectOutcome
  | parseFailure (message : String) : GenObjectOutcome
  | noObject : GenObjectOutcome
  | chatFailed (e : ChatError) : GenObjectOutcome
  | noResponse : GenObjectOutcome

/-- Observable result of `generateObject`: final contents of the shared
messages array, request/notification traces, and the outcome. -/
structure GenObjectResult where
  messages : List ChatMessage
  requests : List RequestBody
  notifications : List String
  outcome : GenObjectOutcome

/-- `generateObject` from `src/fastai.ts` (line 158-196).  The caller's
messages array is aliased onto `openai.messages`; when it holds no system
message, the default preamble is `push`ed, i.e. appended at the END of the
array.  The chat loop runs with the `generateObject` flag, so the first
resolvable tool call returns its raw `arguments` string, which is then
`JSON.parse`d and validated (`if (res)` makes an empty string fall through
to the final throw). -/
def generateObject (env : ProcessEnv) (options : GenerateObjectOptions)
    (jsonParse : String → Except String Json) (responses : List ChatResponse) :
    GenObjectResult :=
  let openai := options.openai.getD (createOpenAI ⟨none, none, none⟩ env)
  let messages1 :=
    if (options.messages.find? (fun m => m.role == Role.system)).isSome then
      options.messages
    else
      options.messages ++ [structuredPreambleMsg]
  let o := { openai with messages := messages1, tools := [submitObjectTool options.schema] }
  let r := OpenAI.chat o jsonParse none true responses
  let outcome :=
    match r.outcome with
    | ChatOutcome.ok res =>
      if res = "" then GenObjectOutcome.noObject
      else
        match jsonParse res with
        | .error e => GenObjectOutcome.parseFailure e
        | .ok j =>
          match options.schema.parse j with
          | .error e => GenObjectOutcome.parseFailure e
          | .ok v => GenObjectOutcome.ok v
    | ChatOutcome.error e => GenObjectOutcome.chatFailed e
    | ChatOutcome.noResponse => GenObjectOutcome.noResponse
  ⟨r.messages, r.requests, r.notifications, outcome⟩

/-!  The server-sent-event decoding loop of `OpenAI.stream` (bundled variant
of `fastai.ts`, the repository's only `stream` implementation).  Byte chunks
are modelled as the strings `decoder.decode(value)` yields. -/

/-- JavaScript `s.split('\n')` on the character level (auxiliary). -/
def splitCharAux (c : Char) : List Char → List Char → List (List Char)
  | [], acc => [acc.reverse]
  | x :: xs, acc =>
    if x = c then acc.reverse :: splitCharAux c xs []
    else splitCharAux c xs (x :: acc)

/-- JavaScript `buffer.split('\n')`. -/
def jsSplitNewline (s : String) : List String :=
  (splitCharAux '\n' s.data []).map fun cs => String.mk cs

/-- JavaScript `line.startsWith('data: ')`. -/
def startsWithData (line : String) : Bool :=
  "data: ".data.isPrefixOf line.data

/-- JavaScript `line.slice(6)`. -/
def sliceFrom6 (line : String) : String :=
  String.mk (line.data.drop 6)

/-- `data.choices?.[0]?.delta` followed by the `delta && delta.content`
truthiness test of the stream loop: the content string, provided it is
present, a string, and non-empty. -/
def deltaContent (j : Json) : Option String :=
  match j with
  | Json.obj fields =>
    match (fields.find? (fun kv => kv.fst == "choices")).map (fun kv => kv.snd) with
    | some (Json.arr (c :: _)) =>
      match c with
      | Json.obj cf =>
        match (cf.find? (fun kv => kv.fst == "delta")).map (fun kv => kv.snd) with
        | some (Json.obj df) =>
          match (df.find? (fun kv => kv.fst == "content")).map (fun kv => kv.snd) with
          | some (Json.str s) => if s = "" then none else some s
          | _ => none
        | _ => none
      | _ => none
    | _ => none
  | _ => none

/-- The `for (const line of lines)` loop of `stream`: skip non-`data:`
lines; on the `[DONE]` sentinel emit `('', true)` and return immediately
(second component `true`), processing no further lines; otherwise
`JSON.parse` the fragment (parse failures are logged and skipped) and emit
`(content, false)` when a non-empty delta content is present. -/
def processLines (jsonParse : String → Except String Json) :
    List String → List (String × Bool) × Bool
  | [] => ([], false)
  | line :: rest =>
    if startsWithData line then
      let dataStr := sliceFrom6 line
      if dataStr = "[DONE]" then
        ([("", true)], true)
      else
        match jsonParse dataStr with
        | .error _ => processLines jsonParse rest
        | .ok data =>
          match deltaContent data with
          | some c =>
            let r := processLines jsonParse rest
            ((c, false) :: r.fst, r.snd)
          | none => processLines jsonParse rest
    else
      processLines jsonParse rest

/-- The `while (true)` read loop of `stream`: accumulate chunks into the
buffer, split off complete lines (the last split fragment stays in the
buffer), process them, and stop for good when the sentinel returned; at
end-of-stream a non-blank trimmed buffer is emitted as one final
`(text, true)` event. -/
def streamLoop (jsonParse : String → Except String Json) :
    List String → String → List (String × Bool)
  | [], buffer =>
    if buffer.trim = "" then [] else [(buffer.trim, true)]
  | chunk :: rest, buffer =>
    let buf := buffer ++ chunk
    let lines := jsSplitNewline buf
    let newBuffer := lines.getLast?.getD ""
    let r := processLines jsonParse lines.dropLast
    if r.snd then r.fst
    else r.fst ++ streamLoop jsonParse rest newBuffer

/-- How one `stream` invocation ends. -/
inductive StreamOutcome where
  | ok (events : List (String × Bool)) : StreamOutcome
  | httpError (status : Nat) : StreamOutcome
  | noBody : StreamOutcome
deriving DecidableEq

/-- Observable result of `stream`: messages after pushing the prompt, and
the `onMsg` invocation trace (or the thrown error). -/
structure StreamResult where
  messages : List ChatMessage
  outcome : StreamOutcome

/-- `OpenAI.stream` (bundled variant): push the prompt as a user message,
POST with `stream: true`, throw on a non-ok status or missing body, then
run the read loop with an empty buffer.  `respOk`, `status`, `hasBody` and
`chunks` model the external HTTP response. -/
def OpenAI.stream (o : OpenAI) (jsonParse : String → Except String Json)
    (prompt : String) (respOk : Bool) (status : Nat) (hasBody : Bool)
    (chunks : List String) : StreamResult :=
  let messages1 := o.messages ++
    [{ role := Role.user, content := some prompt, tool_calls := none, tool_call_id := none }]
  if respOk = false then ⟨messages1, StreamOutcome.httpError status⟩
  else if hasBody = false then ⟨messages1, StreamOutcome.noBody⟩
  else ⟨messages1, StreamOutcome.ok (streamLoop jsonParse chunks "")⟩

/-!  Concrete fixtures used by witnesses and counterexamples. -/

/-- A `JSON.parse` model that parses every string to `null` (enough for
tool-argument strings whose parsed value is irrelevant). -/
def jpNull : String → Except String Json := fun _ => Except.ok Json.null

/-- A pass-through zod schema: `parse` accepts every value unchanged. -/
def idSchema : Schema := ⟨fun j => Except.ok j, Json.null⟩

/-- A concrete registered tool. -/
def echoTool : Tool :=
  { name := "echo", description := none, parameters := idSchema,
    execute := fun _ => ExecOutcome.async "done" }

/-- A tool whose `execute` returns its string synchronously (no promise). -/
def syncTool : Tool :=
  { name := "syncer", description := none, parameters := idSchema,
    execute := fun _ => ExecOutcome.sync "hi" }

/-- An empty environment: no fallback variables set. -/
def testEnv : ProcessEnv := ⟨none, none, none⟩

/-- A concrete client, as `createOpenAI` would build it with a key. -/
def testClient : OpenAI :=
  { baseURL := "https://api.openai.com/v1"
    endpoint := "https://api.openai.com/v1/chat/completions"
    apiKey := "key", model := "m", messages := [], tools := []
    hasOnToolCall := false }

/-- The same client with an `onToolCall` observer installed. -/
def testClientObs : OpenAI := { testClient with hasOnToolCall := true }

/-- A user message. -/
def msgU : ChatMessage :=
  { role := Role.user, content := some "hi", tool_calls := none, tool_call_id := none }

/-- A plain assistant reply with no tool calls. -/
def asstPlain : ChatMessage :=
  { role := Role.assistant, content := some "ok", tool_calls := none, tool_call_id := none }

/-- A transport response carrying `asstPlain`. -/
def respPlain : ChatResponse := ⟨[⟨asstPlain⟩]⟩

/-- A transport response with no choices at all. -/
def respNoChoice : ChatResponse := ⟨[]⟩

/-- Two calls to the registered `echo` tool, and one to an unknown tool. -/
def callE1 : ToolCall := ⟨0, "call_1", "function", ⟨"echo", "\x7b\x7d"⟩⟩

/-- Second call to the registered `echo` tool. -/
def callE2 : ToolCall := ⟨1, "call_2", "function", ⟨"echo", "\x7b\x7d"⟩⟩

/-- A call naming a tool absent from the registry. -/
def callMissing : ToolCall := ⟨0, "call_9", "function", ⟨"missing", "\x7b\x7d"⟩⟩

/-- An assistant message requesting `echo` twice, in order. -/
def asstCalls2 : ChatMessage :=
  { role := Role.assistant, content := none,
    tool_calls := some [callE1, callE2], tool_call_id := none }

/-- A transport response carrying `asstCalls2`. -/
def respCalls2 : ChatResponse := ⟨[⟨asstCalls2⟩]⟩

/-- An assistant message whose only call names an unknown tool. -/
def asstMissing : ChatMessage :=
  { role := Role.assistant, content := none,
    tool_calls := some [callMissing], tool_call_id := none }

/-- A transport response carrying `asstMissing`. -/
def respMissing : ChatResponse := ⟨[⟨asstMissing⟩]⟩

/-- An assistant message with a resolvable call, then an unknown one, then
another resolvable one (tests observer completeness on aborts). -/
def asstMixed : ChatMessage :=
  { role := Role.assistant, content := none,
    tool_calls := some [callE1, callMissing, callE2], tool_call_id := none }

/-- A transport response carrying `asstMixed`. -/
def respMixed : ChatResponse := ⟨[⟨asstMixed⟩]⟩

/-- The JSON payload of a content-delta frame carrying "Hi". -/
def hiPayload : String := "\x7b\"choices\": [\x7b\"delta\": \x7b\"content\": \"Hi\"\x7d\x7d]\x7d"

/-- What `JSON.parse` yields on `hiPayload`. -/
def hiJson : Json :=
  Json.obj [("choices", Json.arr [Json.obj [("delta", Json.obj [("content", Json.str "Hi")])]])]

/-- `JSON.parse` restricted to the frames of the claimed stream: parses
`hiPayload` to `hiJson` and throws on anything else. -/
def jpStream : String → Except String Json :=
  fun s => if s = hiPayload then Except.ok hiJson else Except.error "SyntaxError"

/-- The server-sent-event frame `data: {"choices":[{"delta":{"content":"Hi"}}]}`. -/
def hiFrame : String := "data: " ++ hiPayload ++ "\n\n"

/-- The sentinel frame `data: [DONE]`. -/
def doneFrame : String := "data: [DONE]\n\n"

/-!  Helper lemmas about the loop. -/

/-- `a || ''` returns a string verbatim (the empty string stays empty). -/
theorem jsOr_some_empty (s : String) : jsOr (some s) "" = s := by
  by_cases h : s = "" <;> simp [jsOr, h]

/-- Every `chatLoop` invocation first POSTs the body built from the current
history and registry. -/
theorem chatLoop_first_request (jp : String → Except String Json)
    (modelName : String) (tools : List Tool) (hasObs genObj : Bool)
    (responses : List ChatResponse) (history : List ChatMessage) :
    (chatLoop jp modelName tools hasObs genObj responses history).requests[0]? =
      some { model := modelName, messages := history,
             tools := ToolsField.list (generateToolsJsonSchema tools) } := by
  cases responses with
  | nil => rfl
  | cons r rest => simp [chatLoop]

/-- The loop only ever appends to the history it is given. -/
theorem chatLoop_messages_extend (jp : String → Except String Json)
    (modelName : String) (tools : List Tool) (hasObs genObj : Bool) :
    ∀ (responses : List ChatResponse) (history : List ChatMessage),
    ∃ t, (chatLoop jp modelName tools hasObs genObj responses history).messages
      = history ++ t := by
  intro responses
  induction responses with
  | nil => intro history; exact ⟨[], by simp [chatLoop]⟩
  | cons r rest ih =>
    intro history
    cases hh : r.choices.head? with
    | none => exact ⟨[], by simp [chatLoop, hh]⟩
    | some choice =>
      by_cases hc : (choice.message.tool_calls.getD []).isEmpty
      · exact ⟨[choice.message], by simp [chatLoop, hh, hc]⟩
      · cases hpc : processCalls jp tools genObj (choice.message.tool_calls.getD []) with
        | completed ap =>
          obtain ⟨t, ht⟩ := ih (history ++ choice.message :: ap)
          exact ⟨choice.message :: (ap ++ t), by simp [chatLoop, hh, hc, hpc, ht]⟩
        | earlyReturn a ap =>
          exact ⟨choice.message :: ap, by simp [chatLoop, hh, hc, hpc]⟩
        | failed e ap =>
          exact ⟨choice.message :: ap, by simp [chatLoop, hh, hc, hpc]⟩

/-- Every request the loop POSTs carries the same serialized tools field:
the (possibly empty) descriptor list — never an omitted field. -/
theorem chatLoop_requests_tools (jp : String → Except String Json)
    (modelName : String) (tools : List Tool) (hasObs genObj : Bool) :
    ∀ (responses : List ChatResponse) (history : List ChatMessage),
    (chatLoop jp modelName tools hasObs genObj responses history).requests.map
        RequestBody.tools =
      List.replicate
        (chatLoop jp modelName tools hasObs genObj responses history).requests.length
        (ToolsField.list (generateToolsJsonSchema tools)) := by
  intro responses
  induction responses with
  | nil => intro history; simp [chatLoop]
  | cons r rest ih =>
    intro history
    cases hh : r.choices.head? with
    | none => simp [chatLoop, hh]
    | some choice =>
      by_cases hc : (choice.message.tool_calls.getD []).isEmpty
      · simp [chatLoop, hh, hc]
      · cases hpc : processCalls jp tools genObj (choice.message.tool_calls.getD []) with
        | completed ap =>
          have h2 := ih (history ++ choice.message :: ap)
          simp [chatLoop, hh, hc, hpc, List.replicate_succ, h2]
        | earlyReturn a ap => simp [chatLoop, hh, hc, hpc]
        | failed e ap => simp [chatLoop, hh, hc, hpc]

/-- A resolvable call (in the sense of `callToolMsg`) produces a tool-role
message answering that call's id. -/
theorem callToolMsg_role_id (jp : String → Except String Json)
    (tools : List Tool) (call : ToolCall) (m : ChatMessage)
    (h : callToolMsg jp tools call = some m) :
    m.role = Role.tool ∧ m.tool_call_id = some call.id := by
  cases hfind : tools.find? (fun t => t.name == call.function.name) with
  | none => simp [callToolMsg, hfind] at h
  | some tool =>
    cases hjp : jp call.function.arguments with
    | error e => simp [callToolMsg, hfind, hjp] at h
    | ok j =>
      cases hparse : tool.parameters.parse j with
      | error e => simp [callToolMsg, hfind, hjp, hparse] at h
      | ok args =>
        simp only [callToolMsg, hfind, hjp, hparse, Option.some.injEq] at h
        subst h
        exact ⟨rfl, rfl⟩

/-- When every call of a batch is resolvable with valid arguments, the loop
body completes and pushes exactly the per-call tool messages, in order. -/
theorem processCalls_all_some (jp : String → Except String Json)
    (tools : List Tool) :
    ∀ calls : List ToolCall,
    (∀ c ∈ calls, (callToolMsg jp tools c).isSome = true) →
    ∃ ap, processCalls jp tools false calls = BatchResult.completed ap ∧
      ap.map some = calls.map (callToolMsg jp tools) := by
  intro calls
  induction calls with
  | nil => exact fun _ => ⟨[], rfl, rfl⟩
  | cons c cs ih =>
    intro h
    have hc := h c (List.mem_cons_self c cs)
    cases hfind : tools.find? (fun t => t.name == c.function.name) with
    | none => simp [callToolMsg, hfind] at hc
    | some tool =>
      cases hjp : jp c.function.arguments with
      | error e => simp [callToolMsg, hfind, hjp] at hc
      | ok j =>
        cases hparse : tool.parameters.parse j with
        | error e => simp [callToolMsg, hfind, hjp, hparse] at hc
        | ok args =>
          obtain ⟨ap, hap, hmap⟩ := ih fun x hx => h x (List.mem_cons_of_mem c hx)
          refine ⟨{ role := Role.tool
                    content := some (awaited (tool.execute args))
                    tool_calls := none
                    tool_call_id := some c.id } :: ap, ?_, ?_⟩
          · simp [processCalls, hfind, hjp, hparse, hap]
          · simp [hmap, callToolMsg, hfind, hjp, hparse]

/-- Messages produced by a completed batch are tool-role answers matched
positionally to the calls, in the server's order. -/
theorem zip_role_id (jp : String → Except String Json) (tools : List Tool) :
    ∀ (ap : List ChatMessage) (calls : List ToolCall),
    ap.map some = calls.map (callToolMsg jp tools) →
    ∀ p ∈ ap.zip calls, p.1.role = Role.tool ∧ p.1.tool_call_id = some p.2.id := by
  intro ap
  induction ap with
  | nil => intro calls _ p hp; simp at hp
  | cons m ms ih =>
    intro calls hmap p hp
    cases calls with
    | nil => simp at hmap
    | cons c cs =>
      simp only [List.map_cons, List.cons.injEq] at hmap
      obtain ⟨h1, h2⟩ := hmap
      simp only [List.zip_cons_cons, List.mem_cons] at hp
      rcases hp with rfl | hp
      · exact callToolMsg_role_id jp tools c m h1.symm
      · exact ih cs h2 p hp

/-- A batch whose prefix is resolvable and which then names an unknown tool
fails with exactly that tool's not-found error, whatever follows. -/
theorem processCalls_unknown (jp : String → Except String Json)
    (tools : List Tool) (bad : ToolCall)
    (hbad : tools.find? (fun t => t.name == bad.function.name) = none) :
    ∀ (pre after : List ToolCall),
    (∀ c ∈ pre, (callToolMsg jp tools c).isSome = true) →
    ∃ ap, processCalls jp tools false (pre ++ bad :: after) =
      BatchResult.failed (ChatError.toolNotFound bad.function.name) ap := by
  intro pre
  induction pre with
  | nil =>
    intro after _
    exact ⟨[], by simp [processCalls, hbad]⟩
  | cons c cs ih =>
    intro after h
    have hc := h c (List.mem_cons_self c cs)
    cases hfind : tools.find? (fun t => t.name == c.function.name) with
    | none => simp [callToolMsg, hfind] at hc
    | some tool =>
      cases hjp : jp c.function.arguments with
      | error e => simp [callToolMsg, hfind, hjp] at hc
      | ok j =>
        cases hparse : tool.parameters.parse j with
        | error e => simp [callToolMsg, hfind, hjp, hparse] at hc
        | ok args =>
          obtain ⟨ap, hap⟩ := ih after fun x hx => h x (List.mem_cons_of_mem c hx)
          refine ⟨{ role := Role.tool
                    content := some (awaited (tool.execute args))
                    tool_calls := none
                    tool_call_id := some c.id } :: ap, ?_⟩
          simp [processCalls, hfind, hjp, hparse, hap]

/-- The loop always issues at least one request. -/
theorem chatLoop_requests_ne_nil (jp : String → Except String Json)
    (modelName : String) (tools : List Tool) (hasObs genObj : Bool)
    (responses : List ChatResponse) (history : List ChatMessage) :
    (chatLoop jp modelName tools hasObs genObj responses history).requests ≠ [] := by
  cases responses with
  | nil => simp [chatLoop]
  | cons r rest => simp [chatLoop]

/-- A list whose `some`-image is the image of `f` is the `filterMap` of `f`. -/
theorem map_some_eq_filterMap {α β : Type} (f : α → Option β) :
    ∀ (ap : List β) (xs : List α), ap.map some = xs.map f → ap = xs.filterMap f := by
  intro ap
  induction ap with
  | nil =>
    intro xs h
    cases xs with
    | nil => rfl
    | cons x l => simp at h
  | cons b bs ih =>
    intro xs h
    cases xs with
    | nil => simp at h
    | cons x l =>
      simp only [List.map_cons, List.cons.injEq] at h
      obtain ⟨h1, h2⟩ := h
      simp [List.filterMap_cons, ← h1, ih l h2]

/-!  Claims. -/

/-- C2: when the transport's first response carries an assistant message
with no tool calls (absent or empty), `generateText` issues exactly one
request and returns the assistant's `content` verbatim — possibly the empty
string, never null (`content || ''`). -/
theorem generateText_toolFree_single_request
    (env : ProcessEnv) (client : OpenAI) (msgs : List ChatMessage)
    (tls : Option (List Tool)) (obs : Bool)
    (jp : String → Except String Json) (resp : ChatResponse)
    (rest : List ChatResponse) (choice : ChatChoice)
    (hresp : resp.choices.head? = some choice)
    (hfree : choice.message.tool_calls = none ∨ choice.message.tool_calls = some []) :
    (generateText env ⟨some client, msgs, tls, obs⟩ jp (resp :: rest)).requests.length = 1 ∧
    (generateText env ⟨some client, msgs, tls, obs⟩ jp (resp :: rest)).outcome
      = ChatOutcome.ok (jsOr choice.message.content "") ∧
    ∀ s, choice.message.content = some s →
      (generateText env ⟨some client, msgs, tls, obs⟩ jp (resp :: rest)).outcome
        = ChatOutcome.ok s := by
  have hisEmpty : (choice.message.tool_calls.getD []).isEmpty = true := by
    rcases hfree with h | h <;> simp [h]
  refine ⟨?_, ?_, ?_⟩
  · simp [generateText, OpenAI.chat, chatLoop, hresp, hisEmpty]
  · simp [generateText, OpenAI.chat, chatLoop, hresp, hisEmpty]
  · intro s hs
    simp [generateText, OpenAI.chat, chatLoop, hresp, hisEmpty, hs, jsOr_some_empty]

/-- C2 witness: a concrete tool-free conversation. -/
theorem generateText_toolFree_single_request_witness :
    (generateText testEnv ⟨some testClient, [msgU], none, false⟩ jpNull [respPlain]).requests.length = 1 ∧
    (generateText testEnv ⟨some testClient, [msgU], none, false⟩ jpNull [respPlain]).outcome
      = ChatOutcome.ok (jsOr asstPlain.content "") ∧
    ∀ s, asstPlain.content = some s →
      (generateText testEnv ⟨some testClient, [msgU], none, false⟩ jpNull [respPlain]).outcome
        = ChatOutcome.ok s :=
  generateText_toolFree_single_request testEnv testClient [msgU] none false jpNull
    respPlain [] ⟨asstPlain⟩ rfl (Or.inl rfl)

/-- C1: when the first response carries N tool calls, each resolvable with
valid arguments, the loop appends exactly N tool-role result messages in
the server's order (visible in the next request's serialized history,
placed right after the assistant message and before anything else), and
the installed `onToolCall` observer is notified once per call with the
tool's name, in the server's order, before any `execute` runs (the
notification trace is computed for the whole batch up front; see C10 for
its independence from execution). -/
theorem generateText_toolCalls_appends_results
    (env : ProcessEnv) (client : OpenAI) (msgs : List ChatMessage)
    (tools : List Tool) (jp : String → Except String Json)
    (resp : ChatResponse) (rest : List ChatResponse) (choice : ChatChoice)
    (calls : List ToolCall)
    (hobs : client.hasOnToolCall = true)
    (hresp : resp.choices.head? = some choice)
    (hcalls : choice.message.tool_calls = some calls)
    (hne : calls ≠ [])
    (hok : ∀ c ∈ calls, (callToolMsg jp tools c).isSome = true) :
    (generateText env ⟨some client, msgs, some tools, true⟩ jp (resp :: rest)).requests[1]?
      = some { model := client.model,
               messages := msgs ++ choice.message :: calls.filterMap (callToolMsg jp tools),
               tools := ToolsField.list (generateToolsJsonSchema tools) } ∧
    (calls.filterMap (callToolMsg jp tools)).length = calls.length ∧
    (∀ p ∈ (calls.filterMap (callToolMsg jp tools)).zip calls,
      p.1.role = Role.tool ∧ p.1.tool_call_id = some p.2.id) ∧
    (generateText env ⟨some client, msgs, some tools, true⟩ jp
        (resp :: rest)).notifications.take calls.length
      = calls.map (fun c => c.function.name) := by
  obtain ⟨ap, hap, hmap⟩ := processCalls_all_some jp tools calls hok
  have hfm : ap = calls.filterMap (callToolMsg jp tools) :=
    map_some_eq_filterMap (callToolMsg jp tools) ap calls hmap
  have hE : calls.isEmpty = false := by
    cases calls with
    | nil => exact absurd rfl hne
    | cons a l => rfl
  have hlen : ap.length = calls.length := by
    have := congrArg List.length hmap
    simpa using this
  refine ⟨?_, ?_, ?_, ?_⟩
  · rw [← hfm]
    simp [generateText, OpenAI.chat, chatLoop, hresp, hcalls, hE, hap,
      chatLoop_first_request]
  · rw [← hfm]; exact hlen
  · rw [← hfm]; exact zip_role_id jp tools ap calls hmap
  · simp only [generateText, OpenAI.chat]
    simp only [chatLoop, hresp, hcalls, hE]
    simp [hap, hobs, hne, List.take_left', List.length_map]

/-- C1 witness: two resolvable `echo` calls in one response. -/
theorem generateText_toolCalls_appends_results_witness :
    (generateText testEnv ⟨some testClientObs, [msgU], some [echoTool], true⟩ jpNull
        [respCalls2, respPlain]).requests[1]?
      = some { model := testClientObs.model,
               messages := [msgU] ++ asstCalls2 ::
                 [callE1, callE2].filterMap (callToolMsg jpNull [echoTool]),
               tools := ToolsField.list (generateToolsJsonSchema [echoTool]) } ∧
    ([callE1, callE2].filterMap (callToolMsg jpNull [echoTool])).length
      = [callE1, callE2].length ∧
    (∀ p ∈ ([callE1, callE2].filterMap (callToolMsg jpNull [echoTool])).zip [callE1, callE2],
      p.1.role = Role.tool ∧ p.1.tool_call_id = some p.2.id) ∧
    (generateText testEnv ⟨some testClientObs, [msgU], some [echoTool], true⟩ jpNull
        [respCalls2, respPlain]).notifications.take [callE1, callE2].length
      = [callE1, callE2].map (fun c => c.function.name) :=
  generateText_toolCalls_appends_results testEnv testClientObs [msgU] [echoTool] jpNull
    respCalls2 [respPlain] ⟨asstCalls2⟩ [callE1, callE2] rfl rfl rfl
    (by decide) (by decide)

/-- C3: a response whose calls reach one naming a tool absent from the
registry (every earlier call resolvable with valid arguments) makes the
whole call fail with the tool-not-found error naming that tool, aborting
the loop: no further request is issued, whatever calls or responses would
have followed. -/
theorem generateText_unknown_tool_aborts
    (env : ProcessEnv) (client : OpenAI) (msgs : List ChatMessage)
    (tools : List Tool) (jp : String → Except String Json)
    (resp : ChatResponse) (rest : List ChatResponse) (choice : ChatChoice)
    (pre : List ToolCall) (bad : ToolCall) (after : List ToolCall)
    (hresp : resp.choices.head? = some choice)
    (hcalls : choice.message.tool_calls = some (pre ++ bad :: after))
    (hpre : ∀ c ∈ pre, (callToolMsg jp tools c).isSome = true)
    (hbad : tools.find? (fun t => t.name == bad.function.name) = none) :
    (generateText env ⟨some client, msgs, some tools, false⟩ jp (resp :: rest)).outcome
      = ChatOutcome.error (ChatError.toolNotFound bad.function.name) ∧
    (generateText env ⟨some client, msgs, some tools, false⟩ jp (resp :: rest)).requests.length
      = 1 := by
  obtain ⟨ap, hap⟩ := processCalls_unknown jp tools bad hbad pre after hpre
  have hE : (pre ++ bad :: after).isEmpty = false := by cases pre <;> rfl
  constructor <;> simp [generateText, OpenAI.chat, chatLoop, hresp, hcalls, hE, hap]

/-- C3 witness: a single call to an unregistered tool. -/
theorem generateText_unknown_tool_aborts_witness :
    (generateText testEnv ⟨some testClient, [msgU], some [echoTool], false⟩ jpNull
        [respMissing]).outcome
      = ChatOutcome.error (ChatError.toolNotFound callMissing.function.name) ∧
    (generateText testEnv ⟨some testClient, [msgU], some [echoTool], false⟩ jpNull
        [respMissing]).requests.length = 1 :=
  generateText_unknown_tool_aborts testEnv testClient [msgU] [echoTool] jpNull
    respMissing [] ⟨asstMissing⟩ [] callMissing [] rfl rfl (by simp) rfl

/-- C10: the `onToolCall` observer is notified for every call of the batch
(`forEach` over the whole batch precedes the execution loop), so even when
the batch contains a call naming an unregistered tool, the observer trace
holds the names of all calls — including those after the offending one,
which are never looked up or executed — and only then does the loop abort
with the tool-not-found error. -/
theorem generateText_observer_fires_before_abort
    (env : ProcessEnv) (client : OpenAI) (msgs : List ChatMessage)
    (tools : List Tool) (jp : String → Except String Json)
    (resp : ChatResponse) (rest : List ChatResponse) (choice : ChatChoice)
    (pre : List ToolCall) (bad : ToolCall) (after : List ToolCall)
    (hobs : client.hasOnToolCall = true)
    (hresp : resp.choices.head? = some choice)
    (hcalls : choice.message.tool_calls = some (pre ++ bad :: after))
    (hpre : ∀ c ∈ pre, (callToolMsg jp tools c).isSome = true)
    (hbad : tools.find? (fun t => t.name == bad.function.name) = none) :
    (generateText env ⟨some client, msgs, some tools, true⟩ jp (resp :: rest)).notifications
      = (pre ++ bad :: after).map (fun c => c.function.name) ∧
    (generateText env ⟨some client, msgs, some tools, true⟩ jp (resp :: rest)).outcome
      = ChatOutcome.error (ChatError.toolNotFound bad.function.name) := by
  obtain ⟨ap, hap⟩ := processCalls_unknown jp tools bad hbad pre after hpre
  have hE : (pre ++ bad :: after).isEmpty = false := by cases pre <;> rfl
  constructor <;>
    simp [generateText, OpenAI.chat, chatLoop, hresp, hcalls, hE, hap, hobs]

/-- C10 witness: a resolvable call, an unknown call, then another
resolvable call; the observer still sees all three names. -/
theorem generateText_observer_fires_before_abort_witness :
    (generateText testEnv ⟨some testClientObs, [msgU], some [echoTool], true⟩ jpNull
        [respMixed]).notifications
      = ([callE1] ++ callMissing :: [callE2]).map (fun c => c.function.name) ∧
    (generateText testEnv ⟨some testClientObs, [msgU], some [echoTool], true⟩ jpNull
        [respMixed]).outcome
      = ChatOutcome.error (ChatError.toolNotFound callMissing.function.name) :=
  generateText_observer_fires_before_abort testEnv testClientObs [msgU] [echoTool] jpNull
    respMixed [] ⟨asstMixed⟩ [callE1] callMissing [callE2] rfl rfl rfl
    (by decide) rfl

/-- C4 counterexample: with a caller input of one user message and no
system message, the history `generateObject` serializes into its (only)
request is `[user, system]` — the synthesized preamble is `push`ed after
the caller's messages, so the system preamble is NOT first. -/
theorem generateObject_system_first_cex :
    ((generateObject testEnv ⟨some testClient, [msgU], idSchema⟩ jpNull
        [respNoChoice]).requests.map (fun b => b.messages.map (fun m => m.role)))
      = [[Role.user, Role.system]] ∧
    [[Role.user, Role.system]] ≠ [[Role.system, Role.user]] :=
  ⟨by decide, by decide⟩

/-- C4 (amended): when the caller input contains no system message,
`generateObject` appends the default preamble once AFTER the caller's
messages; the history sent to the transport is the caller's messages
followed by the synthesized system message (for a single user prompt this
is the two-message history `[user, system]`, user first). -/
theorem generateObject_preamble_appended
    (env : ProcessEnv) (client : OpenAI) (msgs : List ChatMessage)
    (schema : Schema) (jp : String → Except String Json)
    (responses : List ChatResponse)
    (hsys : msgs.find? (fun m => m.role == Role.system) = none) :
    (generateObject env ⟨some client, msgs, schema⟩ jp responses).requests[0]?
      = some { model := client.model,
               messages := msgs ++ [structuredPreambleMsg],
               tools := ToolsField.list (generateToolsJsonSchema [submitObjectTool schema]) } := by
  simp [generateObject, OpenAI.chat, hsys, chatLoop_first_request]

/-- C4 witness: the amended claim at the concrete one-user-message input. -/
theorem generateObject_preamble_appended_witness :
    (generateObject testEnv ⟨some testClient, [msgU], idSchema⟩ jpNull
        [respNoChoice]).requests[0]?
      = some { model := testClient.model,
               messages := [msgU] ++ [structuredPreambleMsg],
               tools := ToolsField.list (generateToolsJsonSchema [submitObjectTool idSchema]) } :=
  generateObject_preamble_appended testEnv testClient [msgU] idSchema jpNull
    [respNoChoice] rfl

/-- C5 counterexample: `openai.messages = options.messages` aliases the
caller's array, and the loop pushes onto it; after a one-round tool-free
call on a single-message input, the shared array holds two messages, so
the caller's array does not keep its length and elements. -/
theorem generateText_history_alias_cex :
    (generateText testEnv ⟨some testClient, [msgU], none, false⟩ jpNull
        [respPlain]).messages = [msgU, asstPlain] ∧
    ([msgU, asstPlain] : List ChatMessage).length ≠ ([msgU] : List ChatMessage).length :=
  ⟨by decide, by decide⟩

/-- C5 (amended): the loop's working history IS the caller's messages array
(aliased, not copied); the loop only appends to it, so after the call
completes (or fails) the caller's array holds its original messages as a
prefix, followed by the appended assistant/tool messages. -/
theorem generateText_history_extends_caller
    (env : ProcessEnv) (client : Option OpenAI) (msgs : List ChatMessage)
    (tls : Option (List Tool)) (obs : Bool)
    (jp : String → Except String Json) (responses : List ChatResponse) :
    ∃ t, (generateText env ⟨client, msgs, tls, obs⟩ jp responses).messages = msgs ++ t := by
  simp only [generateText, OpenAI.chat]
  exact chatLoop_messages_extend jp _ _ _ false responses msgs

/-- C6 counterexample: with no tools supplied, the body of the (single)
request carries `tools` as a present field holding the empty list — not an
absent/omitted field. -/
theorem generateText_empty_registry_cex :
    (generateText testEnv ⟨some testClient, [msgU], none, false⟩ jpNull
        [respPlain]).requests.map RequestBody.tools = [ToolsField.list []] ∧
    ToolsField.list ([] : List ToolDescriptor) ≠ ToolsField.absent :=
  ⟨rfl, fun h => nomatch h⟩

/-- C6 (amended): with no tools supplied, every request body `generateText`
serializes contains the `tools` field with the empty list as its value
(`generateToolsJsonSchema` maps an empty registry to `[]`, which
`JSON.stringify` keeps); the field is never omitted, and at least one such
request is issued. -/
theorem generateText_empty_registry_sends_empty_list
    (env : ProcessEnv) (client : Option OpenAI) (msgs : List ChatMessage)
    (obs : Bool) (jp : String → Except String Json) (responses : List ChatResponse) :
    (generateText env ⟨client, msgs, none, obs⟩ jp responses).requests.map RequestBody.tools
      = List.replicate
          (generateText env ⟨client, msgs, none, obs⟩ jp responses).requests.length
          (ToolsField.list []) ∧
    (generateText env ⟨client, msgs, none, obs⟩ jp responses).requests.length ≠ 0 := by
  constructor
  · simp only [generateText, OpenAI.chat]
    have h := chatLoop_requests_tools jp
      ((client.getD (createOpenAI ⟨none, none, none⟩ env)).model)
      ((none : Option (List Tool)).getD [])
      ((client.getD (createOpenAI ⟨none, none, none⟩ env)).hasOnToolCall)
      false responses msgs
    simpa [generateToolsJsonSchema] using h
  · simp only [generateText, OpenAI.chat]
    intro h0
    rw [List.length_eq_zero] at h0
    exact chatLoop_requests_ne_nil jp _ _ _ false responses msgs h0

/-- C7 counterexample: with no API key in options and none in the
environment, `createOpenAI` does not fail — it returns a client whose
`apiKey` is the empty string. -/
theorem createOpenAI_missing_key_cex :
    (createOpenAI ⟨none, none, none⟩ ⟨none, none, none⟩).apiKey = "" := rfl

/-- C7 (amended): `createOpenAI` is total and never raises a configuration
error; when no API key is available from explicit options or the
environment fallback, it yields a client whose `apiKey` is the empty
string (`options.apiKey || process.env.OPENAI_API_KEY || ''`). -/
theorem createOpenAI_missing_key_yields_empty
    (options : CreateOpenAIOptions) (env : ProcessEnv)
    (h1 : options.apiKey = none ∨ options.apiKey = some "")
    (h2 : env.OPENAI_API_KEY = none ∨ env.OPENAI_API_KEY = some "") :
    (createOpenAI options env).apiKey = "" := by
  rcases h1 with h1 | h1 <;> rcases h2 with h2 | h2 <;>
    simp [createOpenAI, jsOr, h1, h2]

/-- C7 witness: an explicit empty-string key with an unset environment. -/
theorem createOpenAI_missing_key_yields_empty_witness :
    (createOpenAI ⟨none, some "", none⟩ ⟨none, none, none⟩).apiKey = "" :=
  createOpenAI_missing_key_yields_empty ⟨none, some "", none⟩ ⟨none, none, none⟩
    (Or.inr rfl) (Or.inl rfl)

/-- C8 counterexample: `createTool` returns its argument unchanged, so a
supplied `execute` that returns its string synchronously is NOT wrapped
into a promise: the created tool's `execute` yields a non-promise result. -/
theorem createTool_no_promise_wrap_cex :
    (createTool syncTool).execute Json.null = ExecOutcome.sync "hi" ∧
    ((createTool syncTool).execute Json.null).isPromise = false :=
  ⟨rfl, rfl⟩

/-- C8 (amended): `createTool` is the identity on the supplied tuple; it
performs no normalization of `execute` (the declared type already demands a
promise-returning `execute`, and whatever is supplied at runtime is
returned as-is). -/
theorem createTool_identity (t : Tool) : createTool t = t := rfl

/-- C9: for a byte stream made of the content-delta frame carrying "Hi"
followed by the `data: [DONE]` sentinel, `stream` invokes the callback
with ("Hi", false), then ("", true), and then returns — whatever further
bytes follow the sentinel are never processed. -/
theorem stream_hi_done_events (o : OpenAI) (extra : List String) :
    (OpenAI.stream o jpStream "q" true 200 true ((hiFrame ++ doneFrame) :: extra)).outcome
      = StreamOutcome.ok [("Hi", false), ("", true)] := by
  have h : processLines jpStream (jsSplitNewline (hiFrame ++ doneFrame)).dropLast
      = ([("Hi", false), ("", true)], true) := by decide
  simp [OpenAI.stream, streamLoop, h]

end FastAI
